import Mathlib

/-!
Verification development for the ROOT/GEANT geometry analyzer
(`src/Geo/ROOTGeomAnalyzer.cxx`): a shallow embedding of the ray-marching
engine (`ComputePathLengths`, `GenerateVertex`, `SetVtxMaterial`,
`ComputeMaxPathLength`, `BuildListOfTargetNuclei`) over an abstract
volume-hierarchy backend, with theorems about path-length accumulation,
termination, determinism and the Monte-Carlo estimator structure.

Doubles are modelled as rationals.  The external geometry backend
(ROOT's `TGeoManager`) is modelled through the contract the engine
consumes: point-to-volume resolution and distance-to-next-boundary
(the `FindNextBoundary` / `GetStep` / `IsEntering` / `Step` sequence is
collapsed to a single step query at the backend's current point, which
the engine only updates through `SetCurrentPoint` at the top of each
traversal iteration).
-/

namespace GeomAnalyzer

/-- A 3-D point or vector (doubles modelled as rationals). -/
abbrev Point := ℚ × ℚ × ℚ

/-- C/C++ conversion of a floating value to `int`: truncation toward zero,
as in `int A=(int)(mat->GetA());`. -/
def cppTrunc (q : ℚ) : Int := if 0 ≤ q then ⌊q⌋ else ⌈q⌉

/-- Modelled from the spec: `pdg::IonPdgCode(A,Z)` (the PDG utility sources
are not part of this snapshot).  Per the spec's data model, an isotope id is
an integer key derived deterministically from (mass number A, atomic
number Z); we use the standard ion encoding `10LZZZAAAI`. -/
def ionPdgCode (A Z : Int) : Int := 1000000000 + 10000 * Z + 10 * A

/-- One constituent of a mixture (`TGeoElement`): `A()` is a double,
`Z()` an integer. -/
structure Element where
  A : ℚ
  Z : Int
deriving DecidableEq, Repr

/-- A `TGeoMaterial`/`TGeoMixture`: `GetA()`, `GetZ()` and `GetDensity()`
return doubles; `IsMixture()` selects the mixture branch, in which case
`GetNelements()`/`GetElement(i)` expose the constituent list. -/
structure Material where
  A : ℚ
  Z : ℚ
  density : ℚ
  isMixture : Bool
  elements : List Element
deriving DecidableEq, Repr

/-- A `TGeoMedium`; its material pointer may be null. -/
structure Medium where
  material : Option Material
deriving DecidableEq, Repr

/-- A `TGeoVolume`: a name (used by the `"World"` lookup), the bounding box
of its shape (`TGeoBBox`: origin and half-extents), and a possibly-null
medium. -/
structure Volume where
  name : String
  boxOrigin : Point
  boxHalf : Point
  medium : Option Medium
deriving DecidableEq, Repr

/-- Modelled from the spec: the external Volume Hierarchy Accessor
(ROOT `TGeoManager`, not code of this repository).  `volumes` is
`GetListOfVolumes()`; `resolve` is the `SetCurrentPoint`/`FindNode`/
`GetCurrentVolume`/`IsOutside` sequence (`none` when the point is outside
all volumes or no current volume is resolved); `stepTo` is the
`FindNextBoundary`/`GetStep` step query at the backend's current point
along the current direction, looped over `IsEntering` as the spec's
backend contract requires. -/
structure Geom where
  volumes : List Volume
  resolve : Point → Option Volume
  stepTo : Point → Point → ℚ

/-- Cursor advance: `xx+=step*dir.x; yy+=step*dir.y; zz+=step*dir.z;`. -/
def advance (pt dir : Point) (step : ℚ) : Point :=
  (pt.1 + step * dir.1, pt.2.1 + step * dir.2.1, pt.2.2 + step * dir.2.2)

/-- Modelled from the spec: `PDGCodeList` (its sources are not part of this
snapshot).  The spec's RegisteredIsotopeSet is a set of isotope ids, so
`push_back` inserts a code only when it is not yet present. -/
abbrev PDGCodeList := List Int

/-- Modelled from the spec: `PDGCodeList::push_back` with set semantics. -/
def pushBackCode (l : PDGCodeList) (c : Int) : PDGCodeList :=
  if c ∈ l then l else l ++ [c]

/-- The isotope codes a material decomposes into: one per constituent for a
mixture, a single code otherwise (exactly the codes the source computes via
`pdg::IonPdgCode` in its element loop / single-material branch). -/
def matCodes (m : Material) : List Int :=
  if m.isMixture then
    m.elements.map (fun e => ionPdgCode (cppTrunc e.A) e.Z)
  else
    [ionPdgCode (cppTrunc m.A) (cppTrunc m.Z)]

/-- The per-volume body of `BuildListOfTargetNuclei`: register every
isotope code of the volume's material.  (The source dereferences the
medium/material without a null check; a null medium or material would
crash it, so the skip branches below are unreachable for the geometries
the source can process.) -/
def registerVolume (acc : PDGCodeList) (v : Volume) : PDGCodeList :=
  match v.medium with
  | none => acc
  | some med =>
    match med.material with
    | none => acc
    | some m => (matCodes m).foldl pushBackCode acc

/-- `ROOTGeomAnalyzer::BuildListOfTargetNuclei`: walk every volume of the
geometry and register each isotope code of its material. -/
def buildListOfTargetNuclei (g : Geom) : PDGCodeList :=
  g.volumes.foldl registerVolume []

/-- Modelled from the spec: `PathLengthList` (its sources are not part of
this snapshot): a mapping isotope id → accumulated scalar, keyed only by
registered isotopes. -/
abbrev PathLengthList := List (Int × ℚ)

/-- Modelled from the spec: the `PathLengthList` constructor from a
`PDGCodeList` — all entries start at zero. -/
def mkPathLengthList (codes : PDGCodeList) : PathLengthList :=
  codes.map (fun c => (c, 0))

/-- Modelled from the spec: `PathLengthList::SetAllToZero`. -/
def setAllToZero (pll : PathLengthList) : PathLengthList :=
  pll.map (fun kv => (kv.1, 0))

/-- Modelled from the spec: `PathLengthList::AddPathLength(pdg, l)` — adds
`l` to the entry for `pdg`; the list stays keyed only by its existing
(registered) isotopes. -/
def addPathLength (pll : PathLengthList) (c : Int) (l : ℚ) : PathLengthList :=
  pll.map (fun kv => if kv.1 = c then (kv.1, kv.2 + l) else kv)

/-- Total accumulated scalar of a path-length list. -/
def pllTotal (pll : PathLengthList) : ℚ :=
  (pll.map Prod.snd).sum

/-- State of the `ComputePathLengths` while-loop: cursor `(xx,yy,zz)`, the
`FlagNotInYet` has-entered flag, and the accumulator. -/
structure CplState where
  pt : Point
  entered : Bool
  pll : PathLengthList
deriving DecidableEq, Repr

/-- Outcome of one `ComputePathLengths` loop iteration: continue with a new
state, or leave the loop with the final accumulator. -/
inductive CplRes where
  | cont : CplState → CplRes
  | stop : PathLengthList → CplRes
deriving DecidableEq, Repr

/-- The element loop of `ComputePathLengths` for a mixture: for each
constituent, the step is re-queried from the backend — whose current point
was last set at the top of the while-loop (`pt0`), so every constituent
receives the same boundary-to-boundary step — the full step is added to
that constituent's entry, and the cursor floats advance by the step. -/
def mixtureLoop (g : Geom) (pt0 dir : Point) :
    List Element → Point → PathLengthList → PathLengthList × Point
  | [], cursor, pll => (pll, cursor)
  | e :: es, cursor, pll =>
    let step := g.stepTo pt0 dir
    mixtureLoop g pt0 dir es (advance cursor dir step)
      (addPathLength pll (ionPdgCode (cppTrunc e.A) e.Z) step)

/-- One iteration of the `ComputePathLengths` while-loop (source lines
371–483): resolve the cursor; if outside, either break (already entered)
or advance to the next boundary; otherwise mark entered, and — unless the
medium/material is null, which exits the loop — accumulate the step for the
resolved material's isotope(s) and advance. -/
def cplIter (g : Geom) (dir : Point) (s : CplState) : CplRes :=
  match g.resolve s.pt with
  | none =>
    if s.entered then .stop s.pll
    else .cont ⟨advance s.pt dir (g.stepTo s.pt dir), s.entered, s.pll⟩
  | some v =>
    match v.medium with
    | none => .stop s.pll
    | some med =>
      match med.material with
      | none => .stop s.pll
      | some m =>
        if m.isMixture then
          let r := mixtureLoop g s.pt dir m.elements s.pt s.pll
          .cont ⟨r.2, true, r.1⟩
        else
          let step := g.stepTo s.pt dir
          .cont ⟨advance s.pt dir step, true,
                 addPathLength s.pll (ionPdgCode (cppTrunc m.A) (cppTrunc m.Z)) step⟩

/-- Fuel-indexed run of the `ComputePathLengths` loop; `none` means the
fuel was exhausted (the source loop is uncapped). -/
def cplRun (g : Geom) (dir : Point) : ℕ → CplState → Option PathLengthList
  | 0, _ => none
  | n + 1, s =>
    match cplIter g dir s with
    | .stop pll => some pll
    | .cont s' => cplRun g dir n s'

/-- The state after `n` continuing iterations of the loop; `none` if the
loop left earlier. -/
def cplIterN (g : Geom) (dir : Point) : ℕ → CplState → Option CplState
  | 0, s => some s
  | n + 1, s =>
    match cplIter g dir s with
    | .cont s' => cplIterN g dir n s'
    | .stop _ => none

/-- `ROOTGeomAnalyzer::ComputePathLengths`: reset the current accumulator
to all-zero, set the direction to the momentum divided by its magnitude
(`p.Px()/p.P()`, … — performed with no guard against a zero magnitude,
which is passed in as `magP`), and march from `x`.  `pll` is the current
`fCurrPathLengthList` contents; `fuel` bounds the uncapped source loop. -/
def computePathLengths (g : Geom) (x p : Point) (magP : ℚ)
    (pll : PathLengthList) (fuel : ℕ) : Option PathLengthList :=
  let pll0 := setAllToZero pll
  let dir : Point := (p.1 / magP, p.2.1 / magP, p.2.2 / magP)
  cplRun g dir fuel ⟨x, false, pll0⟩

/-! ### A concrete test geometry: the spec's single-cube scenario -/

/-- Membership test for the cube of half-extent 10 centred at the origin.
Entry faces are closed and exit faces along +x are open so that a
boundary-exact step crosses into the next region, as the spec's backend
contract requires of `DistanceToNextBoundary`. -/
def inCube (pt : Point) : Bool :=
  decide ((-10 : ℚ) ≤ pt.1 ∧ pt.1 < 10 ∧
          (-10 : ℚ) ≤ pt.2.1 ∧ pt.2.1 ≤ 10 ∧
          (-10 : ℚ) ≤ pt.2.2 ∧ pt.2.2 ≤ 10)

/-- The cube's material: isotope A=16, Z=8, density 1. -/
def cubeMat : Material := ⟨16, 8, 1, false, []⟩

/-- The cube's medium. -/
def cubeMed : Medium := ⟨some cubeMat⟩

/-- The cube volume (named "World", half-extent 10 per axis). -/
def cubeVol : Volume := ⟨"World", (0, 0, 0), (10, 10, 10), some cubeMed⟩

/-- Boundary distance for the cube backend along the +x axis: from inside,
the distance to the exit face; from outside on the −x side, the distance to
the entry face.  (The test rays of this development travel along +x.) -/
def cubeStep (pt _dir : Point) : ℚ :=
  if inCube pt then 10 - pt.1
  else if pt.1 < -10 then -10 - pt.1
  else 0

/-- The single-cube geometry of the spec's concrete scenario. -/
def cubeGeom : Geom where
  volumes := [cubeVol]
  resolve := fun pt => if inCube pt then some cubeVol else none
  stepTo := cubeStep

/-! ### `ComputeMaxPathLength` (the estimator's bounded probe) -/

/-- State of the `ComputeMaxPathLength` loop: cursor, `FlagNotInYet`, and
the accumulated `Length`. -/
structure MplState where
  pt : Point
  entered : Bool
  len : ℚ
deriving DecidableEq, Repr

/-- Outcome of one `ComputeMaxPathLength` iteration. -/
inductive MplRes where
  | cont : MplState → MplRes
  | stop : ℚ → MplRes
deriving DecidableEq, Repr

/-- One iteration of the `ComputeMaxPathLength` loop (source lines
769–841).  Note the source takes `mat->GetA()`/`GetZ()` directly (no
mixture branch here) and accumulates the bare step — `Length+=step;` —
when the isotope code matches; the material's density is never read. -/
def mplIter (g : Geom) (dir : Point) (pdgc : Int) (s : MplState) : MplRes :=
  match g.resolve s.pt with
  | none =>
    if s.entered then .stop s.len
    else .cont ⟨advance s.pt dir (g.stepTo s.pt dir), s.entered, s.len⟩
  | some v =>
    match v.medium with
    | none => .stop s.len
    | some med =>
      match med.material with
      | none => .stop s.len
      | some m =>
        let step := g.stepTo s.pt dir
        let len' := if ionPdgCode (cppTrunc m.A) (cppTrunc m.Z) = pdgc
                    then s.len + step else s.len
        .cont ⟨advance s.pt dir step, true, len'⟩

/-- Bounded run of the probe loop: when the iteration budget is exhausted
the current `Length` is returned (the source's `counterloop < 100` cap
leaves the loop normally). -/
def mplRun (g : Geom) (dir : Point) (pdgc : Int) : ℕ → MplState → ℚ
  | 0, s => s.len
  | n + 1, s =>
    match mplIter g dir pdgc s with
    | .stop len => len
    | .cont s' => mplRun g dir pdgc n s'

/-- `ROOTGeomAnalyzer::ComputeMaxPathLength(XYZ, direction, pdgc)`: a ray
march from `XYZ` along `direction` capped at 100 loop iterations,
accumulating the path length restricted to isotope `pdgc`. -/
def computeMaxPathLength (g : Geom) (xyz dir : Point) (pdgc : Int) : ℚ :=
  mplRun g dir pdgc 100 ⟨xyz, false, 0⟩

/-- Follows the spec's words (for comparison with the source): one
iteration of the probe the spec describes, which accumulates the
*density-weighted* path length — each matching segment contributes
`step × density`. -/
def weightedMplIter (g : Geom) (dir : Point) (pdgc : Int) (s : MplState) :
    MplRes :=
  match g.resolve s.pt with
  | none =>
    if s.entered then .stop s.len
    else .cont ⟨advance s.pt dir (g.stepTo s.pt dir), s.entered, s.len⟩
  | some v =>
    match v.medium with
    | none => .stop s.len
    | some med =>
      match med.material with
      | none => .stop s.len
      | some m =>
        let step := g.stepTo s.pt dir
        let len' := if ionPdgCode (cppTrunc m.A) (cppTrunc m.Z) = pdgc
                    then s.len + step * m.density else s.len
        .cont ⟨advance s.pt dir step, true, len'⟩

/-- Follows the spec's words: the bounded density-weighted probe run. -/
def weightedMplRun (g : Geom) (dir : Point) (pdgc : Int) : ℕ → MplState → ℚ
  | 0, s => s.len
  | n + 1, s =>
    match weightedMplIter g dir pdgc s with
    | .stop len => len
    | .cont s' => weightedMplRun g dir pdgc n s'

/-- Follows the spec's words: the density-weighted bounded probe. -/
def weightedMaxPathLength (g : Geom) (xyz dir : Point) (pdgc : Int) : ℚ :=
  weightedMplRun g dir pdgc 100 ⟨xyz, false, 0⟩

/-- Rescale a material's density, leaving its composition unchanged. -/
def scaleDensityMat (c : ℚ) (m : Material) : Material :=
  { m with density := c * m.density }

/-- Rescale the density of a volume's material. -/
def scaleDensityVol (c : ℚ) (v : Volume) : Volume :=
  { v with medium := v.medium.map (fun med => ⟨med.material.map (scaleDensityMat c)⟩) }

/-- Rescale every density in a geometry (volume list and resolver alike);
geometry and boundary structure are untouched. -/
def scaleDensityGeom (c : ℚ) (g : Geom) : Geom where
  volumes := g.volumes.map (scaleDensityVol c)
  resolve := fun pt => (g.resolve pt).map (scaleDensityVol c)
  stepTo := g.stepTo

/-! ### `GenerateVertex` (the vertex sampler) -/

/-- State of the first `GenerateVertex` loop: cursor, `FlagNotInYet`, and
the density-weighted distance `dist`. -/
structure GvState where
  pt : Point
  entered : Bool
  dist : ℚ
deriving DecidableEq, Repr

/-- Outcome of one first-phase `GenerateVertex` iteration. -/
inductive GvRes where
  | cont : GvState → GvRes
  | stop : ℚ → GvRes
deriving DecidableEq, Repr

/-- One iteration of the first `GenerateVertex` loop (source lines
527–607): like `ComputePathLengths` but accumulating
`dist += step*density` only when the resolved material's code equals the
target (again no mixture branch: `mat->GetA()`/`GetZ()` directly). -/
def gvIter (g : Geom) (dir : Point) (tgt : Int) (s : GvState) : GvRes :=
  match g.resolve s.pt with
  | none =>
    if s.entered then .stop s.dist
    else .cont ⟨advance s.pt dir (g.stepTo s.pt dir), s.entered, s.dist⟩
  | some v =>
    match v.medium with
    | none => .stop s.dist
    | some med =>
      match med.material with
      | none => .stop s.dist
      | some m =>
        let step := g.stepTo s.pt dir
        let dist' := if ionPdgCode (cppTrunc m.A) (cppTrunc m.Z) = tgt
                     then s.dist + step * m.density else s.dist
        .cont ⟨advance s.pt dir step, true, dist'⟩

/-- Fuel-indexed run of the first `GenerateVertex` loop. -/
def gvRun (g : Geom) (dir : Point) (tgt : Int) : ℕ → GvState → Option ℚ
  | 0, _ => none
  | n + 1, s =>
    match gvIter g dir tgt s with
    | .stop dist => some dist
    | .cont s' => gvRun g dir tgt n s'

/-- State of the second `GenerateVertex` loop: cursor, `FlagNotInYet`, and
the weighted distance `distToVtx` marched so far. -/
structure Gv2State where
  pt : Point
  entered : Bool
  dAcc : ℚ
deriving DecidableEq, Repr

/-- The second `GenerateVertex` loop (source lines 632–696): re-march from
the origin in fixed increments of `StepIncrease = 0.001`, accumulating
`StepIncrease*density` while inside the target, until the accumulated
weighted length reaches `distVertex` (checked at the top of the loop),
the cursor leaves the geometry after having entered (`break`), or a
volume without medium/material is met after entry; in every case the
final cursor is pulled back by one `StepIncrease` before being returned. -/
def gvPhase2 (g : Geom) (dir : Point) (tgt : Int) (distVertex : ℚ) :
    ℕ → Gv2State → Option Point
  | 0, _ => none
  | n + 1, s =>
    if s.dAcc < distVertex then
      let pt' := advance s.pt dir (1 / 1000)
      match g.resolve pt' with
      | none =>
        if s.entered then some (advance pt' dir (-(1 / 1000)))
        else gvPhase2 g dir tgt distVertex n ⟨pt', s.entered, s.dAcc⟩
      | some v =>
        match v.medium with
        | none => some (advance pt' dir (-(1 / 1000)))
        | some med =>
          match med.material with
          | none => some (advance pt' dir (-(1 / 1000)))
          | some m =>
            let dAcc' := if ionPdgCode (cppTrunc m.A) (cppTrunc m.Z) = tgt
                         then s.dAcc + (1 / 1000) * m.density else s.dAcc
            gvPhase2 g dir tgt distVertex n ⟨pt', true, dAcc'⟩
    else some (advance s.pt dir (-(1 / 1000)))

/-- `ROOTGeomAnalyzer::GenerateVertex(x, p, tgtpdg)`: reset the vertex to
the origin `(0,0,0)`, march the ray accumulating the density-weighted
length of the target material; when that total is zero, return the reset
vertex unchanged (this single path covers "target never met" and "target
met with zero weight" alike); otherwise draw `distVertex = r*dist` with
`r = U(0,1)` and re-march in fixed `0.001` increments to locate the
vertex. -/
def generateVertex (g : Geom) (x p : Point) (magP : ℚ) (tgt : Int)
    (r : ℚ) (fuel1 fuel2 : ℕ) : Option Point :=
  let dir : Point := (p.1 / magP, p.2.1 / magP, p.2.2 / magP)
  match gvRun g dir tgt fuel1 ⟨x, false, 0⟩ with
  | none => none
  | some dist =>
    if dist = 0 then some ((0 : ℚ), (0 : ℚ), (0 : ℚ))
    else gvPhase2 g dir tgt (r * dist) fuel2 ⟨x, false, 0⟩

/-! ### `SetVtxMaterial` (the max-path-length estimator)

The random source (`RandomGen`/`TRandom3`, a process-wide stream) is
modelled as a function `rng : ℕ → ℚ` from draw index to drawn value, the
index being threaded through the loops in the order the source calls
`r3.Rndm()`.  The C `sqrt` used to normalize the sampled directions is
modelled as an uninterpreted parameter `sq : ℚ → ℚ`. -/

/-- Direction normalization in the estimator:
`dirTot = sqrt(d₀²+d₁²+d₂²); d /= dirTot`. -/
def normalize3 (sq : ℚ → ℚ) (d : Point) : Point :=
  let t := sq (d.1 * d.1 + d.2.1 * d.2.1 + d.2.2 * d.2.2)
  (d.1 / t, d.2.1 / t, d.2.2 / t)

/-- The inner `while(Rgen<maxRays)` loop of one face block: consume three
draws for a direction, normalize it, probe with `ComputeMaxPathLength`
from the fixed surface point, and keep the running maximum
(`if(Length>MaxPath) MaxPath=Length;`).  Returns the next free draw index
and the updated maximum. -/
def rayLoop (g : Geom) (pdgc : Int) (sq : ℚ → ℚ) (rng : ℕ → ℚ)
    (mkDir : ℚ → ℚ → ℚ → Point) (xyz : Point) :
    ℕ → ℕ → ℚ → ℕ × ℚ
  | 0, idx, mx => (idx, mx)
  | n + 1, idx, mx =>
    let d := normalize3 sq (mkDir (rng idx) (rng (idx + 1)) (rng (idx + 2)))
    let len := computeMaxPathLength g xyz d pdgc
    rayLoop g pdgc sq rng mkDir xyz n (idx + 3) (if mx < len then len else mx)

/-- The outer `while(igen<maxPoints)` loop of one face block: consume two
draws for a surface point, then run the 200-ray inner loop. -/
def pointLoop (g : Geom) (pdgc : Int) (sq : ℚ → ℚ) (rng : ℕ → ℚ)
    (mkPt : ℚ → ℚ → Point) (mkDir : ℚ → ℚ → ℚ → Point) :
    ℕ → ℕ → ℚ → ℕ × ℚ
  | 0, idx, mx => (idx, mx)
  | n + 1, idx, mx =>
    let xyz := mkPt (rng idx) (rng (idx + 1))
    let p := rayLoop g pdgc sq rng mkDir xyz 200 (idx + 2) mx
    pointLoop g pdgc sq rng mkPt mkDir n p.1 p.2

/-- Surface point of the top face (`y = oy+dy`, free x and z). -/
def topPt (o d : Point) (r1 r2 : ℚ) : Point :=
  (o.1 - d.1 + 2 * d.1 * r1, o.2.1 + d.2.1, o.2.2 - d.2.2 + 2 * d.2.2 * r2)

/-- Inward-biased direction off the top face (`direction[1] = -Rndm()`). -/
def topDir (r1 r2 r3 : ℚ) : Point := (-(1/2) + r1, -r2, -(1/2) + r3)

/-- Surface point of the bottom face (`y = oy-dy`). -/
def bottomPt (o d : Point) (r1 r2 : ℚ) : Point :=
  (o.1 - d.1 + 2 * d.1 * r1, o.2.1 - d.2.1, o.2.2 - d.2.2 + 2 * d.2.2 * r2)

/-- Inward-biased direction off the bottom face (`direction[1] = Rndm()`). -/
def bottomDir (r1 r2 r3 : ℚ) : Point := (-(1/2) + r1, r2, -(1/2) + r3)

/-- Surface point of the left face (`x = ox-dx`, free y and z). -/
def leftPt (o d : Point) (r1 r2 : ℚ) : Point :=
  (o.1 - d.1, o.2.1 - d.2.1 + 2 * d.2.1 * r1, o.2.2 - d.2.2 + 2 * d.2.2 * r2)

/-- Inward-biased direction off the left face (`direction[0] = Rndm()`). -/
def leftDir (r1 r2 r3 : ℚ) : Point := (r1, -(1/2) + r2, -(1/2) + r3)

/-- Surface point of the right face (`x = ox+dx`). -/
def rightPt (o d : Point) (r1 r2 : ℚ) : Point :=
  (o.1 + d.1, o.2.1 - d.2.1 + 2 * d.2.1 * r1, o.2.2 - d.2.2 + 2 * d.2.2 * r2)

/-- Inward-biased direction off the right face (`direction[0] = -Rndm()`). -/
def rightDir (r1 r2 r3 : ℚ) : Point := (-r1, -(1/2) + r2, -(1/2) + r3)

/-- Surface point of the back face (`z = oz-dz`, free x and y). -/
def backPt (o d : Point) (r1 r2 : ℚ) : Point :=
  (o.1 - d.1 + 2 * d.1 * r1, o.2.1 - d.2.1 + 2 * d.2.1 * r2, o.2.2 - d.2.2)

/-- Inward-biased direction off the back face (`direction[2] = Rndm()`). -/
def backDir (r1 r2 r3 : ℚ) : Point := (-(1/2) + r1, -(1/2) + r2, r3)

/-- Surface point of the front face (`z = oz+dz`). -/
def frontPt (o d : Point) (r1 r2 : ℚ) : Point :=
  (o.1 - d.1 + 2 * d.1 * r1, o.2.1 - d.2.1 + 2 * d.2.1 * r2, o.2.2 + d.2.2)

/-- Inward-biased direction off the front face (`direction[2] = -Rndm()`). -/
def frontDir (r1 r2 r3 : ℚ) : Point := (-(1/2) + r1, -(1/2) + r2, -r3)

/-- The six face blocks of `SetVtxMaterial` in source order (top, bottom,
left, right, back, front), threading the draw index and the running
maximum (`MaxPath` starts at 0); `o`/`d` are the World box origin and
half-extents. -/
def setVtxMaterialCore (g : Geom) (pdgc : Int) (rng : ℕ → ℚ) (sq : ℚ → ℚ)
    (o d : Point) : ℚ :=
  let p1 := pointLoop g pdgc sq rng (topPt o d) topDir 200 0 0
  let p2 := pointLoop g pdgc sq rng (bottomPt o d) bottomDir 200 p1.1 p1.2
  let p3 := pointLoop g pdgc sq rng (leftPt o d) leftDir 200 p2.1 p2.2
  let p4 := pointLoop g pdgc sq rng (rightPt o d) rightDir 200 p3.1 p3.2
  let p5 := pointLoop g pdgc sq rng (backPt o d) backDir 200 p4.1 p4.2
  let p6 := pointLoop g pdgc sq rng (frontPt o d) frontDir 200 p5.1 p5.2
  p6.2

/-- The `"World"` lookup of `SetVtxMaterial`: scan the volume list and
take the first volume whose name compares equal to `"World"`. -/
def findWorldVolume (g : Geom) : Option Volume :=
  g.volumes.find? (fun v => v.name == "World")

/-- `ROOTGeomAnalyzer::SetVtxMaterial(pdgc)`: guard on a loaded geometry,
on the requested code being registered, and on a `"World"` volume
existing — each failure logs, sets `fMaterial = -1` and returns 0 — then
run the six-face Monte-Carlo estimation.  Returns the pair
(returned double, resulting `fMaterial`). -/
def setVtxMaterial (gOpt : Option Geom) (pdgc : Int) (rng : ℕ → ℚ)
    (sq : ℚ → ℚ) : ℚ × Int :=
  match gOpt with
  | none => (0, -1)
  | some g =>
    if pdgc ∈ buildListOfTargetNuclei g then
      match findWorldVolume g with
      | none => (0, -1)
      | some w => (setVtxMaterialCore g pdgc rng sq w.boxOrigin w.boxHalf, pdgc)
    else (0, -1)

/-! ### Spec-side trial lists for the estimator

Written from the spec's words (§4.4): per face, `P = 200` surface points,
each with `R = 200` inward-biased directions, each (point, direction) pair
probed by the bounded march; the estimate is the maximum over all trials. -/

/-- The `R` probes for one surface point, as a list: the `j`-th trial uses
draws `idx+3j`, `idx+3j+1`, `idx+3j+2`. -/
def rayTrials (g : Geom) (pdgc : Int) (sq : ℚ → ℚ) (rng : ℕ → ℚ)
    (mkDir : ℚ → ℚ → ℚ → Point) (xyz : Point) : ℕ → ℕ → List ℚ
  | 0, _ => []
  | n + 1, idx =>
    computeMaxPathLength g xyz
        (normalize3 sq (mkDir (rng idx) (rng (idx + 1)) (rng (idx + 2)))) pdgc
      :: rayTrials g pdgc sq rng mkDir xyz n (idx + 3)

/-- The `P × R` probes for one face, as a list: each point consumes two
draws and its 200 rays consume 600 more. -/
def faceTrials (g : Geom) (pdgc : Int) (sq : ℚ → ℚ) (rng : ℕ → ℚ)
    (mkPt : ℚ → ℚ → Point) (mkDir : ℚ → ℚ → ℚ → Point) : ℕ → ℕ → List ℚ
  | 0, _ => []
  | n + 1, idx =>
    rayTrials g pdgc sq rng mkDir (mkPt (rng idx) (rng (idx + 1))) 200 (idx + 2)
      ++ faceTrials g pdgc sq rng mkPt mkDir n (idx + 602)

/-- All `6 × 200 × 200` probes of the estimator, in source order. -/
def estimatorTrials (g : Geom) (pdgc : Int) (rng : ℕ → ℚ) (sq : ℚ → ℚ)
    (o d : Point) : List ℚ :=
  faceTrials g pdgc sq rng (topPt o d) topDir 200 0
    ++ faceTrials g pdgc sq rng (bottomPt o d) bottomDir 200 120400
    ++ faceTrials g pdgc sq rng (leftPt o d) leftDir 200 240800
    ++ faceTrials g pdgc sq rng (rightPt o d) rightDir 200 361200
    ++ faceTrials g pdgc sq rng (backPt o d) backDir 200 481600
    ++ faceTrials g pdgc sq rng (frontPt o d) frontDir 200 602000

/-! ## Helper lemmas -/

/-- The key list of a path-length list. -/
def pllKeys (pll : PathLengthList) : List Int := pll.map Prod.fst

theorem pllKeys_addPathLength (pll : PathLengthList) (c : Int) (l : ℚ) :
    pllKeys (addPathLength pll c l) = pllKeys pll := by
  simp [pllKeys, addPathLength, List.map_map, Function.comp_def, apply_ite Prod.fst]

theorem pllKeys_setAllToZero (pll : PathLengthList) :
    pllKeys (setAllToZero pll) = pllKeys pll := by
  simp [pllKeys, setAllToZero, List.map_map, Function.comp_def]

theorem setAllToZero_eq_of_keys {pll₁ pll₂ : PathLengthList}
    (h : pllKeys pll₁ = pllKeys pll₂) :
    setAllToZero pll₁ = setAllToZero pll₂ := by
  have h₁ : ∀ pll : PathLengthList,
      setAllToZero pll = (pllKeys pll).map (fun k => (k, (0 : ℚ))) := by
    intro pll
    simp [setAllToZero, pllKeys, List.map_map, Function.comp_def]
  rw [h₁, h₁, h]

theorem pllTotal_addPathLength (pll : PathLengthList) (c : Int) (l : ℚ) :
    pllTotal (addPathLength pll c l) =
      pllTotal pll + l * ((pllKeys pll).count c) := by
  induction pll with
  | nil => simp [pllTotal, addPathLength, pllKeys]
  | cons kv t ih =>
    by_cases h : kv.1 = c
    · simp only [addPathLength, List.map_cons, h, if_pos rfl, pllTotal,
        List.sum_cons, pllKeys, List.count_cons]
      have := ih
      simp only [pllTotal, pllKeys, addPathLength] at this
      rw [this]
      simp [h]
      ring
    · simp only [addPathLength, List.map_cons, if_neg h, pllTotal,
        List.sum_cons, pllKeys, List.count_cons]
      have := ih
      simp only [pllTotal, pllKeys, addPathLength] at this
      rw [this]
      simp [h]
      ring

theorem pllTotal_addPathLength_of_mem {pll : PathLengthList} {c : Int}
    (l : ℚ) (hmem : c ∈ pllKeys pll) (hnd : (pllKeys pll).Nodup) :
    pllTotal (addPathLength pll c l) = pllTotal pll + l := by
  rw [pllTotal_addPathLength, List.count_eq_one_of_mem hnd hmem]
  norm_num

/-- One pass of the element loop: keys are preserved. -/
theorem pllKeys_mixtureLoop (g : Geom) (pt0 dir : Point) :
    ∀ (es : List Element) (cursor : Point) (pll : PathLengthList),
      pllKeys (mixtureLoop g pt0 dir es cursor pll).1 = pllKeys pll := by
  intro es
  induction es with
  | nil => intro cursor pll; rfl
  | cons e t ih =>
    intro cursor pll
    simp [mixtureLoop, ih, pllKeys_addPathLength]

/-- Claim C1 core: the element loop adds the same boundary-to-boundary
step once per constituent. -/
theorem pllTotal_mixtureLoop (g : Geom) (pt0 dir : Point) :
    ∀ (es : List Element) (cursor : Point) (pll : PathLengthList),
      (∀ e ∈ es, ionPdgCode (cppTrunc e.A) e.Z ∈ pllKeys pll) →
      (pllKeys pll).Nodup →
      pllTotal (mixtureLoop g pt0 dir es cursor pll).1 =
        pllTotal pll + es.length * g.stepTo pt0 dir := by
  intro es
  induction es with
  | nil => intro cursor pll _ _; simp [mixtureLoop]
  | cons e t ih =>
    intro cursor pll hmem hnd
    have hkeys := pllKeys_addPathLength pll
      (ionPdgCode (cppTrunc e.A) e.Z) (g.stepTo pt0 dir)
    have hrec := ih (advance cursor dir (g.stepTo pt0 dir))
      (addPathLength pll (ionPdgCode (cppTrunc e.A) e.Z) (g.stepTo pt0 dir))
      (by intro e' he'; rw [hkeys]; exact hmem e' (List.mem_cons_of_mem _ he'))
      (by rw [hkeys]; exact hnd)
    simp only [mixtureLoop]
    rw [hrec, pllTotal_addPathLength_of_mem _ (hmem e (List.mem_cons_self _ _)) hnd]
    simp only [List.length_cons]
    push_cast
    ring

/-! ## Claim C1 -/

/-- Claim C1: for a traversed segment whose material is a mixture of N
constituents, `ComputePathLengths` attributes the full boundary-to-boundary
crossing distance (`stepTo` at the segment's start) separately to each
constituent — the same step once per constituent, not split by mass
fraction — so the total recorded path length grows by N times the
geometric crossing distance. -/
theorem mixture_attributes_full_step_per_element
    (g : Geom) (dir : Point) (s : CplState) (v : Volume) (med : Medium)
    (m : Material)
    (hres : g.resolve s.pt = some v) (hmed : v.medium = some med)
    (hmat : med.material = some m) (hmix : m.isMixture = true)
    (hkeys : ∀ e ∈ m.elements, ionPdgCode (cppTrunc e.A) e.Z ∈ pllKeys s.pll)
    (hnd : (pllKeys s.pll).Nodup) :
    ∃ s', cplIter g dir s = .cont s' ∧
      pllTotal s'.pll =
        pllTotal s.pll + m.elements.length * g.stepTo s.pt dir := by
  refine ⟨⟨(mixtureLoop g s.pt dir m.elements s.pt s.pll).2, true,
           (mixtureLoop g s.pt dir m.elements s.pt s.pll).1⟩, ?_, ?_⟩
  · simp [cplIter, hres, hmed, hmat, hmix]
  · exact pllTotal_mixtureLoop g s.pt dir m.elements s.pt s.pll hkeys hnd

/-- A two-constituent mixture (carbon-12 and hydrogen-1, density 2). -/
def mixMat : Material := ⟨13, 7, 2, true, [⟨12, 6⟩, ⟨1, 1⟩]⟩

/-- Medium of the mixture volume. -/
def mixMed : Medium := ⟨some mixMat⟩

/-- The mixture test volume. -/
def mixVol : Volume := ⟨"World", (0, 0, 0), (5, 5, 5), some mixMed⟩

/-- A one-volume test geometry containing the mixture at the origin, with
boundary distance 5 from every queried point. -/
def mixGeom : Geom where
  volumes := [mixVol]
  resolve := fun pt => if pt = ((0 : ℚ), 0, 0) then some mixVol else none
  stepTo := fun _ _ => 5

/-- The loop state entering the mixture segment. -/
def mixState : CplState :=
  ⟨((0 : ℚ), 0, 0), false, [(ionPdgCode 12 6, 0), (ionPdgCode 1 1, 0)]⟩

theorem mixture_attributes_full_step_per_element_witness :
    ∃ s', cplIter mixGeom ((1 : ℚ), 0, 0) mixState = .cont s' ∧
      pllTotal s'.pll =
        pllTotal mixState.pll +
          mixMat.elements.length * mixGeom.stepTo mixState.pt ((1 : ℚ), 0, 0) :=
  mixture_attributes_full_step_per_element mixGeom ((1 : ℚ), 0, 0) mixState
    mixVol mixMed mixMat
    (by norm_num [mixGeom, mixState]) rfl rfl rfl
    (by
      intro e he
      simp only [mixMat, List.mem_cons, List.not_mem_nil, or_false] at he
      rcases he with h | h <;>
        simp [h, mixState, pllKeys, ionPdgCode, cppTrunc])
    (by norm_num [mixState, pllKeys, ionPdgCode])

/-! ## Claim C2 -/

theorem cplRun_cont {g : Geom} {dir : Point} {s s' : CplState}
    (h : cplIter g dir s = .cont s') (n : ℕ) :
    cplRun g dir (n + 1) s = cplRun g dir n s' := by
  simp [cplRun, h]

theorem cplRun_stop {g : Geom} {dir : Point} {s : CplState}
    {pll : PathLengthList} (h : cplIter g dir s = .stop pll) (n : ℕ) :
    cplRun g dir (n + 1) s = some pll := by
  simp [cplRun, h]

/-- Claim C2: for the single-cube geometry (isotope A=16, Z=8, density 1,
half-extent 10 per axis, centred at the origin) and the ray from
(-20,0,0) along (1,0,0), `ComputePathLengths` returns a list whose only
non-zero entry is 20 for isotope (16,8) — for any loop budget of at least
the three iterations the traversal takes. -/
theorem cube_chord_path_length (k : ℕ) :
    computePathLengths cubeGeom ((-20 : ℚ), 0, 0) ((1 : ℚ), 0, 0) 1
      (mkPathLengthList (buildListOfTargetNuclei cubeGeom)) (k + 3) =
      some [(ionPdgCode 16 8, 20)] := by
  have h0 : cplIter cubeGeom ((1 : ℚ), 0, 0)
      ⟨((-20 : ℚ), 0, 0), false, [(ionPdgCode 16 8, 0)]⟩ =
      .cont ⟨((-10 : ℚ), 0, 0), false, [(ionPdgCode 16 8, 0)]⟩ := by
    norm_num [cplIter, cubeGeom, cubeStep, inCube, advance]
  have h1 : cplIter cubeGeom ((1 : ℚ), 0, 0)
      ⟨((-10 : ℚ), 0, 0), false, [(ionPdgCode 16 8, 0)]⟩ =
      .cont ⟨((10 : ℚ), 0, 0), true, [(ionPdgCode 16 8, 20)]⟩ := by
    norm_num [cplIter, cubeGeom, cubeStep, inCube, advance, cubeVol, cubeMed,
      cubeMat, addPathLength, ionPdgCode, cppTrunc]
  have h2 : cplIter cubeGeom ((1 : ℚ), 0, 0)
      ⟨((10 : ℚ), 0, 0), true, [(ionPdgCode 16 8, 20)]⟩ =
      .stop [(ionPdgCode 16 8, 20)] := by
    norm_num [cplIter, cubeGeom, inCube]
  have hpll : setAllToZero
      (mkPathLengthList (buildListOfTargetNuclei cubeGeom)) =
      [(ionPdgCode 16 8, 0)] := by
    norm_num [setAllToZero, mkPathLengthList, buildListOfTargetNuclei,
      registerVolume, cubeGeom, cubeVol, cubeMed, cubeMat, matCodes,
      pushBackCode, ionPdgCode, cppTrunc]
  have hdir : (((1 : ℚ) / 1, (0 : ℚ) / 1, (0 : ℚ) / 1) : Point) =
      ((1 : ℚ), 0, 0) := by norm_num
  show cplRun cubeGeom ((1 : ℚ) / 1, (0 : ℚ) / 1, (0 : ℚ) / 1) (k + 3)
      ⟨((-20 : ℚ), 0, 0), false,
        setAllToZero (mkPathLengthList (buildListOfTargetNuclei cubeGeom))⟩ =
      some [(ionPdgCode 16 8, 20)]
  rw [hdir, hpll]
  calc cplRun cubeGeom ((1 : ℚ), 0, 0) (k + 3)
        ⟨((-20 : ℚ), 0, 0), false, [(ionPdgCode 16 8, 0)]⟩ =
      cplRun cubeGeom ((1 : ℚ), 0, 0) (k + 2)
        ⟨((-10 : ℚ), 0, 0), false, [(ionPdgCode 16 8, 0)]⟩ :=
        cplRun_cont h0 (k + 2)
    _ = cplRun cubeGeom ((1 : ℚ), 0, 0) (k + 1)
        ⟨((10 : ℚ), 0, 0), true, [(ionPdgCode 16 8, 20)]⟩ :=
        cplRun_cont h1 (k + 1)
    _ = some [(ionPdgCode 16 8, 20)] := cplRun_stop h2 k

/-! ## Claim C4 -/

/-- A resolved volume carrying full material information (the loop can
only leave through the exit break when this holds everywhere). -/
def volHasMat (v : Volume) : Prop :=
  ∃ med, v.medium = some med ∧ ∃ m, med.material = some m

theorem cplIterN_run {g : Geom} {dir : Point} :
    ∀ {n : ℕ} {s0 s : CplState}, cplIterN g dir n s0 = some s →
      ∀ m : ℕ, cplRun g dir (n + m) s0 = cplRun g dir m s := by
  intro n
  induction n with
  | zero =>
    intro s0 s h m
    simp only [cplIterN] at h
    cases h
    simp
  | succ n ih =>
    intro s0 s h m
    rw [show n + 1 + m = (n + m) + 1 by omega]
    simp only [cplIterN] at h
    cases hit : cplIter g dir s0 with
    | cont s' =>
      rw [hit] at h
      exact (cplRun_cont hit (n + m)).trans (ih h m)
    | stop pll => rw [hit] at h; cases h

/-- Claim C4: whenever the ray eventually resolves outside all volumes
after having entered the geometry, the uncapped `ComputePathLengths` loop
terminates; the loop breaks exactly at an outside cursor with the
has-entered flag set (given every resolvable volume carries material
information), and an outside cursor before first entry is advanced to the
next boundary instead of terminating. -/
theorem traversal_terminates_on_exit (g : Geom) (dir : Point) (s0 : CplState)
    (hwf : ∀ pt v, g.resolve pt = some v → volHasMat v)
    (hexit : ∃ n s, cplIterN g dir n s0 = some s ∧
      g.resolve s.pt = none ∧ s.entered = true) :
    (∃ fuel pll, cplRun g dir fuel s0 = some pll) ∧
    (∀ s : CplState, g.resolve s.pt = none → s.entered = true →
      cplIter g dir s = .stop s.pll) ∧
    (∀ s : CplState, g.resolve s.pt = none → s.entered = false →
      cplIter g dir s =
        .cont ⟨advance s.pt dir (g.stepTo s.pt dir), false, s.pll⟩) ∧
    (∀ (s : CplState) (pll : PathLengthList), cplIter g dir s = .stop pll →
      g.resolve s.pt = none ∧ s.entered = true) := by
  have hstop : ∀ s : CplState, g.resolve s.pt = none → s.entered = true →
      cplIter g dir s = .stop s.pll := by
    intro s hout hent
    simp [cplIter, hout, hent]
  refine ⟨?_, hstop, ?_, ?_⟩
  · obtain ⟨n, s, hiter, hout, hent⟩ := hexit
    refine ⟨n + 1, s.pll, ?_⟩
    rw [cplIterN_run hiter 1]
    exact cplRun_stop (hstop s hout hent) 0
  · intro s hout hent
    rw [cplIter, hout, hent]
    simp
  · intro s pll h
    cases hres : g.resolve s.pt with
    | none =>
      rw [cplIter, hres] at h
      cases hent : s.entered with
      | false => rw [hent] at h; simp at h
      | true => exact ⟨rfl, rfl⟩
    | some v =>
      exfalso
      obtain ⟨med, hmed, m, hmat⟩ := hwf s.pt v hres
      rw [cplIter, hres] at h
      simp only [hmed, hmat] at h
      by_cases hmix : m.isMixture <;> simp [hmix] at h

/-- The start state of the cube traversal used as a concrete exit
scenario. -/
def cubeStart : CplState :=
  ⟨((-20 : ℚ), 0, 0), false, [(ionPdgCode 16 8, 0)]⟩

theorem traversal_terminates_on_exit_witness :
    (∀ pt v, cubeGeom.resolve pt = some v → volHasMat v) ∧
    (∃ n s, cplIterN cubeGeom ((1 : ℚ), 0, 0) n cubeStart = some s ∧
      cubeGeom.resolve s.pt = none ∧ s.entered = true) ∧
    (∃ fuel pll, cplRun cubeGeom ((1 : ℚ), 0, 0) fuel cubeStart = some pll) := by
  have hwf : ∀ pt v, cubeGeom.resolve pt = some v → volHasMat v := by
    intro pt v h
    simp only [cubeGeom] at h
    split at h
    · exact (Option.some.inj h) ▸ ⟨cubeMed, rfl, cubeMat, rfl⟩
    · exact Option.noConfusion h
  have hexit : ∃ n s, cplIterN cubeGeom ((1 : ℚ), 0, 0) n cubeStart = some s ∧
      cubeGeom.resolve s.pt = none ∧ s.entered = true := by
    refine ⟨2, ⟨((10 : ℚ), 0, 0), true, [(ionPdgCode 16 8, 20)]⟩, ?_, ?_, rfl⟩
    · norm_num [cplIterN, cplIter, cubeStart, cubeGeom, cubeStep, inCube,
        advance, cubeVol, cubeMed, cubeMat, addPathLength, ionPdgCode, cppTrunc]
    · norm_num [cubeGeom, inCube]
  exact ⟨hwf, hexit,
    (traversal_terminates_on_exit cubeGeom ((1 : ℚ), 0, 0) cubeStart hwf hexit).1⟩

/-! ## Claim C8 -/

theorem pllKeys_cplIter_cont {g : Geom} {dir : Point} {s s' : CplState}
    (h : cplIter g dir s = .cont s') : pllKeys s'.pll = pllKeys s.pll := by
  rw [cplIter] at h
  cases hres : g.resolve s.pt with
  | none =>
    rw [hres] at h
    cases hent : s.entered with
    | true => rw [hent] at h; simp at h
    | false =>
      rw [hent] at h
      simp only [Bool.false_eq_true, if_false] at h
      cases h
      rfl
  | some v =>
    rw [hres] at h
    cases hmedo : v.medium with
    | none => simp [hmedo] at h
    | some med =>
      cases hmato : med.material with
      | none => simp [hmedo, hmato] at h
      | some m =>
        by_cases hmix : m.isMixture = true
        · simp only [hmedo, hmato, if_pos hmix] at h
          cases h
          exact pllKeys_mixtureLoop g s.pt dir m.elements s.pt s.pll
        · simp only [hmedo, hmato, if_neg hmix] at h
          cases h
          exact pllKeys_addPathLength s.pll _ _

theorem pllKeys_cplIter_stop {g : Geom} {dir : Point} {s : CplState}
    {pll : PathLengthList} (h : cplIter g dir s = .stop pll) :
    pllKeys pll = pllKeys s.pll := by
  rw [cplIter] at h
  cases hres : g.resolve s.pt with
  | none =>
    rw [hres] at h
    cases hent : s.entered with
    | true => rw [hent] at h; simp only [if_pos rfl] at h; cases h; rfl
    | false => rw [hent] at h; simp at h
  | some v =>
    rw [hres] at h
    cases hmedo : v.medium with
    | none => simp only [hmedo] at h; cases h; rfl
    | some med =>
      cases hmato : med.material with
      | none => simp only [hmedo, hmato] at h; cases h; rfl
      | some m =>
        by_cases hmix : m.isMixture = true
        · simp [hmedo, hmato, if_pos hmix] at h
        · simp [hmedo, hmato, if_neg hmix] at h

theorem pllKeys_cplRun {g : Geom} {dir : Point} :
    ∀ {n : ℕ} {s : CplState} {r : PathLengthList},
      cplRun g dir n s = some r → pllKeys r = pllKeys s.pll := by
  intro n
  induction n with
  | zero => intro s r h; exact Option.noConfusion h
  | succ n ih =>
    intro s r h
    rw [cplRun] at h
    cases hit : cplIter g dir s with
    | stop pll =>
      rw [hit] at h
      cases h
      exact pllKeys_cplIter_stop hit
    | cont s' =>
      rw [hit] at h
      exact (ih h).trans (pllKeys_cplIter_cont hit)

/-- Claim C8: `ComputePathLengths` fully resets the accumulator at the
start of every call, so calling it again with the same origin, direction
and geometry — with the accumulator now holding the previous call's
result — returns the identical list: the result is deterministic and
independent of prior calls. -/
theorem repeat_call_deterministic (g : Geom) (x p : Point) (magP : ℚ)
    (pll : PathLengthList) (fuel : ℕ) (r : PathLengthList)
    (h : computePathLengths g x p magP pll fuel = some r) :
    computePathLengths g x p magP r fuel = some r := by
  simp only [computePathLengths] at h ⊢
  have hkeys : pllKeys r = pllKeys pll :=
    (pllKeys_cplRun h).trans (pllKeys_setAllToZero pll)
  rw [setAllToZero_eq_of_keys hkeys]
  exact h

theorem repeat_call_deterministic_witness :
    computePathLengths cubeGeom ((-20 : ℚ), 0, 0) ((1 : ℚ), 0, 0) 1
        (mkPathLengthList (buildListOfTargetNuclei cubeGeom)) 5 =
      some [(ionPdgCode 16 8, 20)] ∧
    computePathLengths cubeGeom ((-20 : ℚ), 0, 0) ((1 : ℚ), 0, 0) 1
        [(ionPdgCode 16 8, 20)] 5 =
      some [(ionPdgCode 16 8, 20)] := by
  have h1 : computePathLengths cubeGeom ((-20 : ℚ), 0, 0) ((1 : ℚ), 0, 0) 1
      (mkPathLengthList (buildListOfTargetNuclei cubeGeom)) 5 =
      some [(ionPdgCode 16 8, 20)] := by
    norm_num [computePathLengths, cplRun, cplIter, cubeGeom, cubeStep, inCube,
      cubeVol, cubeMed, cubeMat, advance, setAllToZero, addPathLength,
      mkPathLengthList, buildListOfTargetNuclei, registerVolume, matCodes,
      pushBackCode, ionPdgCode, cppTrunc]
  exact ⟨h1, repeat_call_deterministic cubeGeom _ _ _ _ _ _ h1⟩

/-! ## Claim C7 -/

theorem mem_pushBackCode (l : PDGCodeList) (c : Int) : c ∈ pushBackCode l c := by
  unfold pushBackCode
  split
  · assumption
  · simp

theorem mem_pushBackCode_of_mem {l : PDGCodeList} {a : Int} (c : Int)
    (h : a ∈ l) : a ∈ pushBackCode l c := by
  unfold pushBackCode
  split
  · exact h
  · simp [h]

theorem mem_foldl_pushBackCode_of_mem {a : Int} :
    ∀ (codes : List Int) (acc : PDGCodeList), a ∈ acc →
      a ∈ codes.foldl pushBackCode acc := by
  intro codes
  induction codes with
  | nil => intro acc h; exact h
  | cons c t ih =>
    intro acc h
    exact ih (pushBackCode acc c) (mem_pushBackCode_of_mem c h)

theorem mem_foldl_pushBackCode_self {a : Int} :
    ∀ (codes : List Int) (acc : PDGCodeList), a ∈ codes →
      a ∈ codes.foldl pushBackCode acc := by
  intro codes
  induction codes with
  | nil => intro acc h; exact absurd h (List.not_mem_nil a)
  | cons c t ih =>
    intro acc h
    rcases List.mem_cons.mp h with rfl | h'
    · exact mem_foldl_pushBackCode_of_mem t _ (mem_pushBackCode acc a)
    · exact ih _ h'

theorem mem_registerVolume_of_mem {a : Int} {acc : PDGCodeList} (v : Volume)
    (h : a ∈ acc) : a ∈ registerVolume acc v := by
  cases hm : v.medium with
  | none => simpa [registerVolume, hm] using h
  | some med =>
    cases hmm : med.material with
    | none => simpa [registerVolume, hm, hmm] using h
    | some m =>
      simp only [registerVolume, hm, hmm]
      exact mem_foldl_pushBackCode_of_mem _ _ h

theorem mem_foldl_registerVolume_of_mem {a : Int} :
    ∀ (vols : List Volume) (acc : PDGCodeList), a ∈ acc →
      a ∈ vols.foldl registerVolume acc := by
  intro vols
  induction vols with
  | nil => intro acc h; exact h
  | cons v t ih =>
    intro acc h
    exact ih _ (mem_registerVolume_of_mem v h)

theorem matCodes_subset_buildList {g : Geom} {v : Volume} {med : Medium}
    {m : Material} (hv : v ∈ g.volumes) (hmed : v.medium = some med)
    (hmat : med.material = some m) {c : Int} (hc : c ∈ matCodes m) :
    c ∈ buildListOfTargetNuclei g := by
  obtain ⟨l₁, l₂, hsplit⟩ := List.append_of_mem hv
  unfold buildListOfTargetNuclei
  rw [hsplit, List.foldl_append, List.foldl_cons]
  refine mem_foldl_registerVolume_of_mem l₂ _ ?_
  simp only [registerVolume, hmed, hmat]
  exact mem_foldl_pushBackCode_self _ _ hc

/-- Accumulator invariant: every entry with a non-zero accumulated value
is keyed by a registered isotope. -/
def PllReg (g : Geom) (pll : PathLengthList) : Prop :=
  ∀ k q, (k, q) ∈ pll → q ≠ 0 → k ∈ buildListOfTargetNuclei g

theorem pllReg_setAllToZero (g : Geom) (pll : PathLengthList) :
    PllReg g (setAllToZero pll) := by
  intro k q hmem hq
  simp only [setAllToZero, List.mem_map] at hmem
  obtain ⟨kv, _, hkv⟩ := hmem
  exact absurd (congrArg Prod.snd hkv).symm hq

theorem pllReg_addPathLength {g : Geom} {pll : PathLengthList} {c : Int}
    (l : ℚ) (hc : c ∈ buildListOfTargetNuclei g) (hp : PllReg g pll) :
    PllReg g (addPathLength pll c l) := by
  intro k q hmem hq
  simp only [addPathLength, List.mem_map] at hmem
  obtain ⟨kv, hkvmem, hkv⟩ := hmem
  by_cases h : kv.1 = c
  · rw [if_pos h] at hkv
    have hk : kv.1 = k := congrArg Prod.fst hkv
    rw [← hk, h]
    exact hc
  · rw [if_neg h] at hkv
    exact hp k q (hkv ▸ hkvmem) hq

theorem pllReg_mixtureLoop {g : Geom} (pt0 dir : Point) :
    ∀ (es : List Element) (cursor : Point) (pll : PathLengthList),
      (∀ e ∈ es, ionPdgCode (cppTrunc e.A) e.Z ∈ buildListOfTargetNuclei g) →
      PllReg g pll →
      PllReg g (mixtureLoop g pt0 dir es cursor pll).1 := by
  intro es
  induction es with
  | nil => intro cursor pll _ hp; exact hp
  | cons e t ih =>
    intro cursor pll hcs hp
    exact ih _ _ (fun e' he' => hcs e' (List.mem_cons_of_mem _ he'))
      (pllReg_addPathLength _ (hcs e (List.mem_cons_self _ _)) hp)

theorem pllReg_cplIter_cont {g : Geom} {dir : Point} {s s' : CplState}
    (hres : ∀ pt v, g.resolve pt = some v → v ∈ g.volumes)
    (h : cplIter g dir s = .cont s') (hp : PllReg g s.pll) :
    PllReg g s'.pll := by
  rw [cplIter] at h
  cases hr : g.resolve s.pt with
  | none =>
    rw [hr] at h
    cases hent : s.entered with
    | true => rw [hent] at h; simp at h
    | false =>
      rw [hent] at h
      simp only [Bool.false_eq_true, if_false] at h
      cases h
      exact hp
  | some v =>
    rw [hr] at h
    have hv : v ∈ g.volumes := hres s.pt v hr
    cases hmedo : v.medium with
    | none => simp [hmedo] at h
    | some med =>
      cases hmato : med.material with
      | none => simp [hmedo, hmato] at h
      | some m =>
        by_cases hmix : m.isMixture = true
        · simp only [hmedo, hmato, if_pos hmix] at h
          cases h
          refine pllReg_mixtureLoop _ _ m.elements s.pt s.pll ?_ hp
          intro e he
          refine matCodes_subset_buildList hv hmedo hmato ?_
          unfold matCodes
          rw [if_pos hmix]
          exact List.mem_map_of_mem _ he
        · simp only [hmedo, hmato, if_neg hmix] at h
          cases h
          refine pllReg_addPathLength _ ?_ hp
          refine matCodes_subset_buildList hv hmedo hmato ?_
          unfold matCodes
          rw [if_neg hmix]
          simp

theorem pllReg_cplIter_stop {g : Geom} {dir : Point} {s : CplState}
    {pll : PathLengthList} (h : cplIter g dir s = .stop pll)
    (hp : PllReg g s.pll) : PllReg g pll := by
  rw [cplIter] at h
  cases hr : g.resolve s.pt with
  | none =>
    rw [hr] at h
    cases hent : s.entered with
    | true => rw [hent] at h; simp only [if_pos rfl] at h; cases h; exact hp
    | false => rw [hent] at h; simp at h
  | some v =>
    rw [hr] at h
    cases hmedo : v.medium with
    | none => simp only [hmedo] at h; cases h; exact hp
    | some med =>
      cases hmato : med.material with
      | none => simp only [hmedo, hmato] at h; cases h; exact hp
      | some m =>
        by_cases hmix : m.isMixture = true
        · simp [hmedo, hmato, if_pos hmix] at h
        · simp [hmedo, hmato, if_neg hmix] at h

theorem pllReg_cplRun {g : Geom} {dir : Point}
    (hres : ∀ pt v, g.resolve pt = some v → v ∈ g.volumes) :
    ∀ {n : ℕ} {s : CplState} {r : PathLengthList},
      cplRun g dir n s = some r → PllReg g s.pll → PllReg g r := by
  intro n
  induction n with
  | zero => intro s r h _; exact Option.noConfusion h
  | succ n ih =>
    intro s r h hp
    rw [cplRun] at h
    cases hit : cplIter g dir s with
    | stop pll =>
      rw [hit] at h
      cases h
      exact pllReg_cplIter_stop hit hp
    | cont s' =>
      rw [hit] at h
      exact ih h (pllReg_cplIter_cont hres hit hp)

/-- Claim C7: assuming the backend only resolves points to volumes of the
geometry's volume list (ROOT's `FindNode` contract), every isotope code
`ComputePathLengths` computes for a resolved material — exactly the codes
it hands to `AddPathLength` — is a member of the registered isotope list
built at load time by `BuildListOfTargetNuclei`, and consequently every
non-zero entry of a returned path-length list is keyed by a registered
isotope.  (The registered list itself is a pure function of the loaded
geometry; nothing in the analyzer mutates it after `Initialize`.) -/
theorem accumulated_codes_registered (g : Geom)
    (hres : ∀ pt v, g.resolve pt = some v → v ∈ g.volumes) :
    (∀ pt v med m, g.resolve pt = some v → v.medium = some med →
      med.material = some m →
      ∀ c ∈ matCodes m, c ∈ buildListOfTargetNuclei g) ∧
    (∀ (x p : Point) (magP : ℚ) (pll : PathLengthList) (fuel : ℕ)
      (r : PathLengthList), computePathLengths g x p magP pll fuel = some r →
      ∀ k q, (k, q) ∈ r → q ≠ 0 → k ∈ buildListOfTargetNuclei g) := by
  constructor
  · intro pt v med m hr hmed hmat c hc
    exact matCodes_subset_buildList (hres pt v hr) hmed hmat hc
  · intro x p magP pll fuel r h k q hmem hq
    simp only [computePathLengths] at h
    exact pllReg_cplRun hres h (pllReg_setAllToZero g pll) k q hmem hq

theorem accumulated_codes_registered_witness :
    (∀ pt v, cubeGeom.resolve pt = some v → v ∈ cubeGeom.volumes) ∧
    ionPdgCode 16 8 ∈ buildListOfTargetNuclei cubeGeom := by
  have hres : ∀ pt v, cubeGeom.resolve pt = some v → v ∈ cubeGeom.volumes := by
    intro pt v h
    simp only [cubeGeom] at h ⊢
    split at h
    · cases h; simp
    · exact Option.noConfusion h
  refine ⟨hres, ?_⟩
  exact (accumulated_codes_registered cubeGeom hres).1 ((-10 : ℚ), 0, 0)
    cubeVol cubeMed cubeMat (by norm_num [cubeGeom, inCube]) rfl rfl
    (ionPdgCode 16 8) (by norm_num [matCodes, cubeMat, ionPdgCode, cppTrunc])

/-! ## Claim C3 -/

/-- The cube material with density 7 (used to separate geometric from
density-weighted path length). -/
def cube7Mat : Material := ⟨16, 8, 7, false, []⟩

/-- Medium of the density-7 cube. -/
def cube7Med : Medium := ⟨some cube7Mat⟩

/-- The density-7 cube volume. -/
def cube7Vol : Volume := ⟨"World", (0, 0, 0), (10, 10, 10), some cube7Med⟩

/-- The density-7 single-cube geometry. -/
def cube7Geom : Geom where
  volumes := [cube7Vol]
  resolve := fun pt => if inCube pt then some cube7Vol else none
  stepTo := cubeStep

theorem mplRun_cont {g : Geom} {dir : Point} {pdgc : Int} {s s' : MplState}
    (h : mplIter g dir pdgc s = .cont s') (n : ℕ) :
    mplRun g dir pdgc (n + 1) s = mplRun g dir pdgc n s' := by
  simp [mplRun, h]

theorem mplRun_stop {g : Geom} {dir : Point} {pdgc : Int} {s : MplState}
    {len : ℚ} (h : mplIter g dir pdgc s = .stop len) (n : ℕ) :
    mplRun g dir pdgc (n + 1) s = len := by
  simp [mplRun, h]

theorem weightedMplRun_cont {g : Geom} {dir : Point} {pdgc : Int}
    {s s' : MplState} (h : weightedMplIter g dir pdgc s = .cont s') (n : ℕ) :
    weightedMplRun g dir pdgc (n + 1) s = weightedMplRun g dir pdgc n s' := by
  simp [weightedMplRun, h]

theorem weightedMplRun_stop {g : Geom} {dir : Point} {pdgc : Int}
    {s : MplState} {len : ℚ} (h : weightedMplIter g dir pdgc s = .stop len)
    (n : ℕ) : weightedMplRun g dir pdgc (n + 1) s = len := by
  simp [weightedMplRun, h]

/-- Claim C3 counterexample: for the density-7 cube crossed over a chord
of length 20, the estimator's probe (`ComputeMaxPathLength`) returns the
bare geometric length 20, not the density-weighted total 140 the claim
describes (`weightedMaxPathLength` follows the spec's words). -/
theorem max_path_probe_not_density_weighted_cex :
    computeMaxPathLength cube7Geom ((-20 : ℚ), 0, 0) ((1 : ℚ), 0, 0)
        (ionPdgCode 16 8) = 20 ∧
    weightedMaxPathLength cube7Geom ((-20 : ℚ), 0, 0) ((1 : ℚ), 0, 0)
        (ionPdgCode 16 8) = 140 ∧
    (20 : ℚ) ≠ 140 := by
  refine ⟨?_, ?_, by norm_num⟩
  · have h0 : mplIter cube7Geom ((1 : ℚ), 0, 0) (ionPdgCode 16 8)
        ⟨((-20 : ℚ), 0, 0), false, 0⟩ =
        .cont ⟨((-10 : ℚ), 0, 0), false, 0⟩ := by
      norm_num [mplIter, cube7Geom, cubeStep, inCube, advance]
    have h1 : mplIter cube7Geom ((1 : ℚ), 0, 0) (ionPdgCode 16 8)
        ⟨((-10 : ℚ), 0, 0), false, 0⟩ =
        .cont ⟨((10 : ℚ), 0, 0), true, 20⟩ := by
      norm_num [mplIter, cube7Geom, cube7Vol, cube7Med, cube7Mat, cubeStep,
        inCube, advance, ionPdgCode, cppTrunc]
    have h2 : mplIter cube7Geom ((1 : ℚ), 0, 0) (ionPdgCode 16 8)
        ⟨((10 : ℚ), 0, 0), true, 20⟩ = .stop 20 := by
      norm_num [mplIter, cube7Geom, inCube]
    show mplRun cube7Geom ((1 : ℚ), 0, 0) (ionPdgCode 16 8) 100
        ⟨((-20 : ℚ), 0, 0), false, 0⟩ = 20
    rw [mplRun_cont h0 99, mplRun_cont h1 98, mplRun_stop h2 97]
  · have h0 : weightedMplIter cube7Geom ((1 : ℚ), 0, 0) (ionPdgCode 16 8)
        ⟨((-20 : ℚ), 0, 0), false, 0⟩ =
        .cont ⟨((-10 : ℚ), 0, 0), false, 0⟩ := by
      norm_num [weightedMplIter, cube7Geom, cubeStep, inCube, advance]
    have h1 : weightedMplIter cube7Geom ((1 : ℚ), 0, 0) (ionPdgCode 16 8)
        ⟨((-10 : ℚ), 0, 0), false, 0⟩ =
        .cont ⟨((10 : ℚ), 0, 0), true, 140⟩ := by
      norm_num [weightedMplIter, cube7Geom, cube7Vol, cube7Med, cube7Mat,
        cubeStep, inCube, advance, ionPdgCode, cppTrunc]
    have h2 : weightedMplIter cube7Geom ((1 : ℚ), 0, 0) (ionPdgCode 16 8)
        ⟨((10 : ℚ), 0, 0), true, 140⟩ = .stop 140 := by
      norm_num [weightedMplIter, cube7Geom, inCube]
    show weightedMplRun cube7Geom ((1 : ℚ), 0, 0) (ionPdgCode 16 8) 100
        ⟨((-20 : ℚ), 0, 0), false, 0⟩ = 140
    rw [weightedMplRun_cont h0 99, weightedMplRun_cont h1 98,
      weightedMplRun_stop h2 97]

theorem mplIter_scaleDensity (c : ℚ) (g : Geom) (dir : Point) (pdgc : Int)
    (s : MplState) :
    mplIter (scaleDensityGeom c g) dir pdgc s = mplIter g dir pdgc s := by
  rw [mplIter, mplIter]
  cases hr : g.resolve s.pt with
  | none => simp [scaleDensityGeom, hr]
  | some v =>
    simp only [scaleDensityGeom, hr, Option.map_some']
    cases hm : v.medium with
    | none => simp [scaleDensityVol, hm]
    | some med =>
      cases hmm : med.material with
      | none => simp [scaleDensityVol, hm, hmm]
      | some m => simp [scaleDensityVol, hm, hmm, scaleDensityMat]

theorem mplRun_scaleDensity (c : ℚ) (g : Geom) (dir : Point) (pdgc : Int) :
    ∀ (n : ℕ) (s : MplState),
      mplRun (scaleDensityGeom c g) dir pdgc n s = mplRun g dir pdgc n s := by
  intro n
  induction n with
  | zero => intro s; rfl
  | succ n ih =>
    intro s
    rw [mplRun, mplRun, mplIter_scaleDensity]
    cases mplIter g dir pdgc s with
    | stop len => rfl
    | cont s' => exact ih s'

/-- Claim C3 amended: the estimator's probe accumulates the bare segment
length for matching segments — its value is invariant under arbitrary
rescaling of every material density, so the maximum `SetVtxMaterial`
builds from these probes is a maximum of *unweighted* path lengths. -/
theorem max_path_probe_density_invariant (c : ℚ) (g : Geom) (xyz dir : Point)
    (pdgc : Int) :
    computeMaxPathLength (scaleDensityGeom c g) xyz dir pdgc =
      computeMaxPathLength g xyz dir pdgc := by
  unfold computeMaxPathLength
  exact mplRun_scaleDensity c g dir pdgc 100 ⟨xyz, false, 0⟩

/-! ## Claim C5 -/

/-- The cube material with density 0 (a void region: the target is
traversed but contributes zero weighted length). -/
def cube0Mat : Material := ⟨16, 8, 0, false, []⟩

/-- Medium of the density-0 cube. -/
def cube0Med : Medium := ⟨some cube0Mat⟩

/-- The density-0 cube volume. -/
def cube0Vol : Volume := ⟨"World", (0, 0, 0), (10, 10, 10), some cube0Med⟩

/-- The density-0 single-cube geometry. -/
def cube0Geom : Geom where
  volumes := [cube0Vol]
  resolve := fun pt => if inCube pt then some cube0Vol else none
  stepTo := cubeStep

/-- Claim C5 refuted: `GenerateVertex` returns the identical reset vertex
`(0,0,0)` both when the ray never meets the target isotope (here the
density-1 cube of oxygen crossed while hunting hydrogen) and when the
target isotope *is* traversed but accumulates zero weighted length (here
the density-0 cube crossed while hunting its own oxygen): the two
outcomes are not distinguishable in the value returned to the caller. -/
theorem vertex_sampler_indistinguishable_outcomes :
    generateVertex cubeGeom ((-20 : ℚ), 0, 0) ((1 : ℚ), 0, 0) 1
        (ionPdgCode 1 1) (1 / 2) 5 5 = some ((0 : ℚ), 0, 0) ∧
    generateVertex cube0Geom ((-20 : ℚ), 0, 0) ((1 : ℚ), 0, 0) 1
        (ionPdgCode 16 8) (1 / 2) 5 5 = some ((0 : ℚ), 0, 0) := by
  constructor
  · norm_num [generateVertex, gvRun, gvIter, cubeGeom, cubeVol, cubeMed,
      cubeMat, cubeStep, inCube, advance, ionPdgCode, cppTrunc]
  · norm_num [generateVertex, gvRun, gvIter, cube0Geom, cube0Vol, cube0Med,
      cube0Mat, cubeStep, inCube, advance, ionPdgCode, cppTrunc]

/-! ## Claim C9 -/

/-- Claim C9 refuted: `ComputePathLengths` performs the direction
normalization `p.Px()/p.P()` with no guard: for a zero-magnitude momentum
the division by zero is carried out (yielding the degenerate direction
`(0,0,0)` in this rational model, a NaN direction in the C++ doubles) and
the call neither fails nor signals — the march simply never terminates
(every fuel bound is exhausted with the cursor stuck in place). -/
theorem zero_momentum_unguarded :
    (∀ fuel : ℕ,
      computePathLengths cubeGeom ((-20 : ℚ), 0, 0) ((0 : ℚ), 0, 0) 0
        [(ionPdgCode 16 8, 0)] fuel =
      cplRun cubeGeom ((0 : ℚ), 0, 0) fuel
        ⟨((-20 : ℚ), 0, 0), false, [(ionPdgCode 16 8, 0)]⟩) ∧
    (∀ fuel : ℕ,
      computePathLengths cubeGeom ((-20 : ℚ), 0, 0) ((0 : ℚ), 0, 0) 0
        [(ionPdgCode 16 8, 0)] fuel = none) := by
  have hdeg : ∀ fuel : ℕ,
      computePathLengths cubeGeom ((-20 : ℚ), 0, 0) ((0 : ℚ), 0, 0) 0
        [(ionPdgCode 16 8, 0)] fuel =
      cplRun cubeGeom ((0 : ℚ), 0, 0) fuel
        ⟨((-20 : ℚ), 0, 0), false, [(ionPdgCode 16 8, 0)]⟩ := by
    intro fuel
    simp only [computePathLengths]
    norm_num [setAllToZero]
  have hiter : cplIter cubeGeom ((0 : ℚ), 0, 0)
      ⟨((-20 : ℚ), 0, 0), false, [(ionPdgCode 16 8, 0)]⟩ =
      .cont ⟨((-20 : ℚ), 0, 0), false, [(ionPdgCode 16 8, 0)]⟩ := by
    norm_num [cplIter, cubeGeom, cubeStep, inCube, advance]
  have hloop : ∀ n : ℕ, cplRun cubeGeom ((0 : ℚ), 0, 0) n
      ⟨((-20 : ℚ), 0, 0), false, [(ionPdgCode 16 8, 0)]⟩ = none := by
    intro n
    induction n with
    | zero => rfl
    | succ n ih => rw [cplRun_cont hiter n]; exact ih
  exact ⟨hdeg, fun fuel => (hdeg fuel).trans (hloop fuel)⟩

/-! ## Claim C6 -/

theorem ite_lt_max (a b : ℚ) : (if a < b then b else a) = max a b := by
  rcases le_or_lt b a with h | h
  · rw [if_neg (not_lt.mpr h), max_eq_left h]
  · rw [if_pos h, max_eq_right h.le]

theorem rayLoop_eq (g : Geom) (pdgc : Int) (sq : ℚ → ℚ) (rng : ℕ → ℚ)
    (mkDir : ℚ → ℚ → ℚ → Point) (xyz : Point) :
    ∀ (n idx : ℕ) (mx : ℚ),
      rayLoop g pdgc sq rng mkDir xyz n idx mx =
        (idx + 3 * n,
         (rayTrials g pdgc sq rng mkDir xyz n idx).foldl max mx) := by
  intro n
  induction n with
  | zero => intro idx mx; simp [rayLoop, rayTrials]
  | succ n ih =>
    intro idx mx
    rw [rayLoop, ih (idx + 3), rayTrials]
    simp only [List.foldl_cons, ite_lt_max]
    exact Prod.ext (by omega) rfl

theorem pointLoop_eq (g : Geom) (pdgc : Int) (sq : ℚ → ℚ) (rng : ℕ → ℚ)
    (mkPt : ℚ → ℚ → Point) (mkDir : ℚ → ℚ → ℚ → Point) :
    ∀ (n idx : ℕ) (mx : ℚ),
      pointLoop g pdgc sq rng mkPt mkDir n idx mx =
        (idx + 602 * n,
         (faceTrials g pdgc sq rng mkPt mkDir n idx).foldl max mx) := by
  intro n
  induction n with
  | zero => intro idx mx; simp [pointLoop, faceTrials]
  | succ n ih =>
    intro idx mx
    rw [pointLoop, rayLoop_eq, ih, faceTrials]
    rw [List.foldl_append]
    exact Prod.ext (by omega) rfl

/-- The six face blocks compute exactly the running maximum (from 0) of
the spec-side trial list. -/
theorem setVtxMaterialCore_eq_foldl (g : Geom) (pdgc : Int) (rng : ℕ → ℚ)
    (sq : ℚ → ℚ) (o d : Point) :
    setVtxMaterialCore g pdgc rng sq o d =
      (estimatorTrials g pdgc rng sq o d).foldl max 0 := by
  unfold setVtxMaterialCore estimatorTrials
  simp only [pointLoop_eq, List.foldl_append]

theorem rayTrials_length (g : Geom) (pdgc : Int) (sq : ℚ → ℚ) (rng : ℕ → ℚ)
    (mkDir : ℚ → ℚ → ℚ → Point) (xyz : Point) :
    ∀ n idx, (rayTrials g pdgc sq rng mkDir xyz n idx).length = n := by
  intro n
  induction n with
  | zero => intro idx; rfl
  | succ n ih => intro idx; simp [rayTrials, ih]

theorem faceTrials_length (g : Geom) (pdgc : Int) (sq : ℚ → ℚ) (rng : ℕ → ℚ)
    (mkPt : ℚ → ℚ → Point) (mkDir : ℚ → ℚ → ℚ → Point) :
    ∀ n idx, (faceTrials g pdgc sq rng mkPt mkDir n idx).length = n * 200 := by
  intro n
  induction n with
  | zero => intro idx; rfl
  | succ n ih =>
    intro idx
    simp [faceTrials, rayTrials_length, ih]
    ring

theorem rayTrials_mem {g : Geom} {pdgc : Int} {sq : ℚ → ℚ} {rng : ℕ → ℚ}
    {mkDir : ℚ → ℚ → ℚ → Point} {xyz : Point} :
    ∀ {n idx : ℕ} {x : ℚ}, x ∈ rayTrials g pdgc sq rng mkDir xyz n idx →
      ∃ d', x = computeMaxPathLength g xyz d' pdgc := by
  intro n
  induction n with
  | zero => intro idx x h; exact absurd h (List.not_mem_nil x)
  | succ n ih =>
    intro idx x h
    rw [rayTrials] at h
    rcases List.mem_cons.mp h with h' | h'
    · exact ⟨_, h'⟩
    · exact ih h'

theorem faceTrials_mem {g : Geom} {pdgc : Int} {sq : ℚ → ℚ} {rng : ℕ → ℚ}
    {mkPt : ℚ → ℚ → Point} {mkDir : ℚ → ℚ → ℚ → Point} :
    ∀ {n idx : ℕ} {x : ℚ}, x ∈ faceTrials g pdgc sq rng mkPt mkDir n idx →
      ∃ xyz' d', x = computeMaxPathLength g xyz' d' pdgc := by
  intro n
  induction n with
  | zero => intro idx x h; exact absurd h (List.not_mem_nil x)
  | succ n ih =>
    intro idx x h
    rw [faceTrials] at h
    rcases List.mem_append.mp h with h' | h'
    · obtain ⟨d', hd⟩ := rayTrials_mem h'
      exact ⟨_, d', hd⟩
    · exact ih h'

/-- Claim C6: the post-guard body of `SetVtxMaterial` performs, for each
of the six faces of the World bounding box, exactly 200 random surface
points with 200 random inward-biased directions each; every trial is a
`ComputeMaxPathLength` probe (whose loop is hard-capped at 100
iterations), and the returned scalar is the running maximum, started at
0, over all 6×200×200 trials. -/
theorem estimator_trial_structure (g : Geom) (pdgc : Int) (rng : ℕ → ℚ)
    (sq : ℚ → ℚ) (o d : Point) :
    setVtxMaterialCore g pdgc rng sq o d =
      (estimatorTrials g pdgc rng sq o d).foldl max 0 ∧
    (estimatorTrials g pdgc rng sq o d).length = 6 * 200 * 200 ∧
    (∀ x ∈ estimatorTrials g pdgc rng sq o d,
      ∃ xyz' d', x = computeMaxPathLength g xyz' d' pdgc) := by
  refine ⟨setVtxMaterialCore_eq_foldl g pdgc rng sq o d, ?_, ?_⟩
  · simp [estimatorTrials, faceTrials_length]
  · intro x hx
    unfold estimatorTrials at hx
    simp only [List.mem_append] at hx
    rcases hx with ((((h | h) | h) | h) | h) | h <;> exact faceTrials_mem h

/-! ## Claim C10 -/

/-- A "World" volume whose interior the navigator never resolves (an
empty/void world): its material is registered, but no probe ever meets
any material. -/
def hollowWorldVol : Volume := ⟨"World", (0, 0, 0), (1, 1, 1), some cubeMed⟩

/-- A geometry with a registered "World" volume but a navigator that
resolves every point to the outside — every estimator trial returns 0,
giving a legitimate zero estimate on the success path. -/
def hollowGeom : Geom where
  volumes := [hollowWorldVol]
  resolve := fun _ => none
  stepTo := fun _ _ => 0

/-- A geometry whose only volume is not named "World". -/
def noWorldVol : Volume := ⟨"Box", (0, 0, 0), (1, 1, 1), some cubeMed⟩

/-- Geometry without any "World" volume. -/
def noWorldGeom : Geom where
  volumes := [noWorldVol]
  resolve := fun _ => none
  stepTo := fun _ _ => 0

theorem mplRun_hollow (dir : Point) (pdgc : Int) :
    ∀ (n : ℕ) (pt : Point) (len : ℚ),
      mplRun hollowGeom dir pdgc n ⟨pt, false, len⟩ = len := by
  intro n
  induction n with
  | zero => intro pt len; rfl
  | succ n ih =>
    intro pt len
    have hit : mplIter hollowGeom dir pdgc ⟨pt, false, len⟩ =
        .cont ⟨advance pt dir (hollowGeom.stepTo pt dir), false, len⟩ := by
      simp [mplIter, hollowGeom]
    rw [mplRun_cont hit n]
    exact ih _ len

theorem computeMaxPathLength_hollow (xyz dir : Point) (pdgc : Int) :
    computeMaxPathLength hollowGeom xyz dir pdgc = 0 :=
  mplRun_hollow dir pdgc 100 xyz 0

theorem foldl_max_zero :
    ∀ l : List ℚ, (∀ x ∈ l, x = 0) → l.foldl max 0 = 0 := by
  intro l
  induction l with
  | nil => intro _; rfl
  | cons a t ih =>
    intro h
    have ha : a = 0 := h a (List.mem_cons_self _ _)
    rw [List.foldl_cons, ha, max_self]
    exact ih (fun x hx => h x (List.mem_cons_of_mem _ hx))

theorem estimatorTrials_hollow_zero (pdgc : Int) (rng : ℕ → ℚ)
    (sq : ℚ → ℚ) (o d : Point) :
    ∀ x ∈ estimatorTrials hollowGeom pdgc rng sq o d, x = 0 := by
  intro x hx
  unfold estimatorTrials at hx
  simp only [List.mem_append] at hx
  rcases hx with ((((h | h) | h) | h) | h) | h <;>
    · obtain ⟨xyz', d', hxeq⟩ := faceTrials_mem h
      rw [hxeq, computeMaxPathLength_hollow]

/-- Claim C10: `SetVtxMaterial` returns 0 with the stored material field
left at −1 when the geometry is not loaded, when the requested code is
not registered, or when no volume named "World" exists — it never aborts;
and a legitimate success-path estimate can also be 0 (hollow world), so
the error return is indistinguishable from a genuine zero estimate by the
returned value alone. -/
theorem set_vtx_material_error_returns :
    (∀ (pdgc : Int) (rng : ℕ → ℚ) (sq : ℚ → ℚ),
      setVtxMaterial none pdgc rng sq = (0, -1)) ∧
    (∀ (g : Geom) (pdgc : Int) (rng : ℕ → ℚ) (sq : ℚ → ℚ),
      pdgc ∉ buildListOfTargetNuclei g →
      setVtxMaterial (some g) pdgc rng sq = (0, -1)) ∧
    (∀ (g : Geom) (pdgc : Int) (rng : ℕ → ℚ) (sq : ℚ → ℚ),
      findWorldVolume g = none →
      setVtxMaterial (some g) pdgc rng sq = (0, -1)) ∧
    (∃ (g : Geom) (pdgc : Int) (rng : ℕ → ℚ) (sq : ℚ → ℚ),
      pdgc ∈ buildListOfTargetNuclei g ∧
      (∃ w, findWorldVolume g = some w) ∧
      setVtxMaterial (some g) pdgc rng sq = (0, pdgc)) := by
  refine ⟨fun _ _ _ => rfl, ?_, ?_, ?_⟩
  · intro g pdgc rng sq h
    simp only [setVtxMaterial]
    rw [if_neg h]
  · intro g pdgc rng sq h
    simp only [setVtxMaterial]
    by_cases hm : pdgc ∈ buildListOfTargetNuclei g
    · rw [if_pos hm, h]
    · rw [if_neg hm]
  · have hmem : ionPdgCode 16 8 ∈ buildListOfTargetNuclei hollowGeom := by
      norm_num [buildListOfTargetNuclei, registerVolume, hollowGeom,
        hollowWorldVol, cubeMed, cubeMat, matCodes, pushBackCode,
        ionPdgCode, cppTrunc]
    have hfind : findWorldVolume hollowGeom = some hollowWorldVol := by
      simp [findWorldVolume, hollowGeom, hollowWorldVol]
    refine ⟨hollowGeom, ionPdgCode 16 8, fun _ => 0, fun q => q, hmem,
      ⟨hollowWorldVol, hfind⟩, ?_⟩
    simp only [setVtxMaterial]
    rw [if_pos hmem, hfind]
    have hcore : setVtxMaterialCore hollowGeom (ionPdgCode 16 8)
        (fun _ => 0) (fun q => q) hollowWorldVol.boxOrigin
        hollowWorldVol.boxHalf = 0 := by
      rw [setVtxMaterialCore_eq_foldl]
      exact foldl_max_zero _ (estimatorTrials_hollow_zero _ _ _ _ _)
    dsimp only
    rw [hcore]

theorem set_vtx_material_error_returns_witness :
    (ionPdgCode 1 1 ∉ buildListOfTargetNuclei hollowGeom) ∧
    setVtxMaterial (some hollowGeom) (ionPdgCode 1 1)
      (fun _ => 0) (fun q => q) = (0, -1) ∧
    (findWorldVolume noWorldGeom = none) ∧
    setVtxMaterial (some noWorldGeom) (ionPdgCode 16 8)
      (fun _ => 0) (fun q => q) = (0, -1) ∧
    setVtxMaterial none (ionPdgCode 16 8)
      (fun _ => 0) (fun q => q) = (0, -1) := by
  have hnot : ionPdgCode 1 1 ∉ buildListOfTargetNuclei hollowGeom := by
    norm_num [buildListOfTargetNuclei, registerVolume, hollowGeom,
      hollowWorldVol, cubeMed, cubeMat, matCodes, pushBackCode,
      ionPdgCode, cppTrunc]
  have hnow : findWorldVolume noWorldGeom = none := by
    simp [findWorldVolume, noWorldGeom, noWorldVol]
  exact ⟨hnot,
    set_vtx_material_error_returns.2.1 hollowGeom _ _ _ hnot,
    hnow,
    set_vtx_material_error_returns.2.2.1 noWorldGeom _ _ _ hnow,
    set_vtx_material_error_returns.1 _ _ _⟩

end GeomAnalyzer
